import Mathlib

/-!
Verification of the AVR GPIO toggle program (`main.c`).

The program overlays hardware port registers with a union of a byte view
(`Reg`) and a bit-field view (`Bit.PIN0 .. Bit.PIN7`), configures the
direction registers of two ports, and then toggles the first port's
output register between 0xAA and 0x00 forever with 1000 ms holds.

The embedding below models 8-bit registers as natural numbers kept below
256 by the write operations, the two memory-mapped port blocks as a
machine state, and the program's run both as a state machine (for the
loop invariants) and as a timed event trace (for the timing claims).
-/

/-- One hardware register cell: the union `U_type` of `main.c`.  The byte
view is the field `Reg`; the bit-field view `Bit.PINi` is modelled by
`readBit` and `writeBit` below, all aliasing the same stored byte. -/
structure U_type where
  Reg : Nat
deriving DecidableEq

/-- Whole-byte store through the byte view (`u.Reg = v` in C); a `uint8_t`
assignment truncates modulo 256. -/
def U_type.writeReg (_u : U_type) (v : Nat) : U_type :=
  ⟨v % 256⟩

/-- Read one bit through the bit-field view (`u.Bit.PINi`). -/
def U_type.readBit (u : U_type) (i : Nat) : Bool :=
  u.Reg.testBit i

/-- Store one bit through the bit-field view (`u.Bit.PINi = v` in C): a
bit-field store fetches the containing byte, replaces bit `i`, and writes
the byte back, leaving the other bits as they were. -/
def U_type.writeBit (u : U_type) (i : Nat) (v : Bool) : U_type :=
  if v then ⟨u.Reg ||| (1 <<< i)⟩ else ⟨u.Reg &&& (255 ^^^ (1 <<< i))⟩

/-- One port register block: the struct `GPIO_Type` of `main.c`, three
byte registers in declaration order `PIN`, `DDR`, `PORT`. -/
structure GPIO_Type where
  PIN : U_type
  DDR : U_type
  PORT : U_type
deriving DecidableEq

/-- Names of the three registers of a port block, in declaration order. -/
inductive PortReg where
  | PIN
  | DDR
  | PORT
deriving DecidableEq

/-- Size of one register cell in bytes (`U_type` holds a single byte). -/
def U_type.sizeBytes : Nat := 1

/-- Byte offset of each register inside a `GPIO_Type` block, from the
struct layout: `PIN` first, then `DDR`, then `PORT`, each one byte. -/
def PortReg.offset : PortReg → Nat
  | .PIN => 0
  | .DDR => U_type.sizeBytes
  | .PORT => 2 * U_type.sizeBytes

/-- Base address of the first port block (`#define GPIOB ((GPIO_Type*) 0x23)`). -/
def GPIOB_base : Nat := 0x23

/-- Base address of the second port block (`#define GPIOD ((GPIO_Type*) 0x29)`). -/
def GPIOD_base : Nat := 0x29

/-- Address of a register of a port block placed at `base`. -/
def regAddr (base : Nat) (r : PortReg) : Nat :=
  base + r.offset

/-- The machine state: the two port blocks used by the program. -/
structure MachineState where
  GPIOB : GPIO_Type
  GPIOD : GPIO_Type
deriving DecidableEq

/-- The initialization statements of `main`, executed once before the
loop: `GPIOB->DDR.Reg = 0xAA;` then `GPIOD->DDR.Bit.PIN0 = 1;`. -/
def mainInit (s : MachineState) : MachineState :=
  let s1 : MachineState :=
    { s with GPIOB := { s.GPIOB with DDR := s.GPIOB.DDR.writeReg 0xAA } }
  { s1 with GPIOD := { s1.GPIOD with DDR := s1.GPIOD.DDR.writeBit 0 true } }

/-- Effect of `GPIOB->PORT.Reg = v;` on the machine state. -/
def writePORTB (s : MachineState) (v : Nat) : MachineState :=
  { s with GPIOB := { s.GPIOB with PORT := s.GPIOB.PORT.writeReg v } }

/-- A machine state with all registers zeroed, used as a concrete start
state in witnesses. -/
def zeroState : MachineState :=
  ⟨⟨⟨0⟩, ⟨0⟩, ⟨0⟩⟩, ⟨⟨0⟩, ⟨0⟩, ⟨0⟩⟩⟩

/-- The two states of the toggle loop: `HIGH` after `GPIOB->PORT.Reg = 0xAA;`
has run, `LOW` after `GPIOB->PORT.Reg = 0x00;` has run. -/
inductive Phase where
  | HIGH
  | LOW
deriving DecidableEq

/-- State of the running system: the machine registers together with the
loop phase currently being held. -/
structure SysState where
  mach : MachineState
  phase : Phase
deriving DecidableEq

/-- The controlling expression of the loop, the literal `1` in `while(1)`.
The loop exits only if this evaluates to zero. -/
def whileCondition : Nat := 1

/-- One transition of the toggle loop: if the `while` condition were zero
the loop would exit (`none`); otherwise the next output write runs and the
phase flips.  The body contains no `break` or `return`, so the write is
unconditional. -/
def sysStep (st : SysState) : Option SysState :=
  if whileCondition = 0 then
    none
  else
    match st.phase with
    | .HIGH => some ⟨writePORTB st.mach 0x00, .LOW⟩
    | .LOW => some ⟨writePORTB st.mach 0xAA, .HIGH⟩

/-- Run `n` transitions of the toggle loop; `none` once the loop has
exited. -/
def sysRun : Nat → SysState → Option SysState
  | 0, st => some st
  | n + 1, st => (sysStep st).bind (sysRun n)

/-- The system state on first reaching a hold: initialization, then
entering the loop and performing the first write `GPIOB->PORT.Reg = 0xAA;`. -/
def startSys (s : MachineState) : SysState :=
  ⟨writePORTB (mainInit s) 0xAA, Phase.HIGH⟩

/-- Hardware-boundary events of a run: a byte write to a register address,
a byte fetch from a register address (as performed by a bit-field store),
and a call of the blocking delay primitive `_delay_ms`. -/
inductive Event where
  | write (addr : Nat) (val : Nat)
  | read (addr : Nat) (val : Nat)
  | delayMs (ms : Nat)
deriving DecidableEq

/-- Whether an event is a register read. -/
def Event.isRead : Event → Bool
  | .read _ _ => true
  | _ => false

/-- Whether an event is a register write. -/
def Event.isWrite : Event → Bool
  | .write _ _ => true
  | _ => false

/-- Events of the initialization statements: `GPIOB->DDR.Reg = 0xAA;` is a
plain byte write; `GPIOD->DDR.Bit.PIN0 = 1;` is a bit-field store, i.e. a
fetch of the current DDRD byte followed by a write of that byte with bit 0
set. -/
def initTrace (s : MachineState) : List Event :=
  [Event.write (regAddr GPIOB_base .DDR) 0xAA,
   Event.read (regAddr GPIOD_base .DDR) s.GPIOD.DDR.Reg,
   Event.write (regAddr GPIOD_base .DDR) ((s.GPIOD.DDR.writeBit 0 true).Reg)]

/-- Events of one iteration of the loop body: write 0xAA to PORTB, delay
1000 ms, write 0x00 to PORTB, delay 1000 ms. -/
def loopBodyTrace : List Event :=
  [Event.write (regAddr GPIOB_base .PORT) 0xAA,
   Event.delayMs 1000,
   Event.write (regAddr GPIOB_base .PORT) 0x00,
   Event.delayMs 1000]

/-- Events of the first `n` iterations of the loop body. -/
def loopTrace : Nat → List Event
  | 0 => []
  | n + 1 => loopBodyTrace ++ loopTrace n

/-- Events of a run of `main` truncated after `n` loop iterations:
initialization followed by the loop. -/
def runTrace (s : MachineState) (n : Nat) : List Event :=
  initTrace s ++ loopTrace n

/-- Value held at register address `addr` at time `t`, replayed from an
event list: writes are instantaneous at the current time `now`, delays
advance the time, and events after time `t` do not affect the sample. -/
def sampleAt (addr : Nat) (t : Nat) : List Event → Nat → Nat → Nat
  | [], _, cur => cur
  | Event.write a v :: rest, now, cur =>
      if now ≤ t then sampleAt addr t rest now (if a = addr then v else cur)
      else cur
  | Event.read _ _ :: rest, now, cur =>
      if now ≤ t then sampleAt addr t rest now cur else cur
  | Event.delayMs d :: rest, now, cur =>
      if now + d ≤ t then sampleAt addr t rest (now + d) cur else cur

/-- The first port's output register sampled at time `t` (in ms, with
`t = 0` the moment the loop is entered after initialization), replayed
from a run long enough to cover time `t`. -/
def portBOut (s : MachineState) (t : Nat) : Nat :=
  sampleAt (regAddr GPIOB_base .PORT) t (runTrace s (t / 2000 + 1)) 0
    s.GPIOB.PORT.Reg

/-- C2: After the initialization step of `main`, the first port's
direction register holds the alternating pattern 0xAA (binary 10101010). -/
theorem ddrb_after_initialization (s : MachineState) :
    (mainInit s).GPIOB.DDR.Reg = 0xAA := by
  rfl

/-- C4: Writing an 8-bit value to a register's byte view and immediately
reading the byte view back returns the same value. -/
theorem byte_view_roundtrip (u : U_type) (v : Nat) (hv : v < 256) :
    (u.writeReg v).Reg = v := by
  simp [U_type.writeReg, Nat.mod_eq_of_lt hv]

/-- Witness for C4 at the concrete value 0xAA. -/
theorem byte_view_roundtrip_witness :
    ((⟨0⟩ : U_type).writeReg 0xAA).Reg = 0xAA :=
  byte_view_roundtrip ⟨0⟩ 0xAA (by decide)

/-- C8: Each port block consists of exactly three consecutive one-byte
registers at a fixed base address, in the order input-state (`PIN`),
direction (`DDR`), output (`PORT`); for the two ports of the program the
registers sit at 0x23..0x25 and 0x29..0x2B. -/
theorem register_block_layout :
    U_type.sizeBytes = 1 ∧
    (∀ base : Nat, regAddr base .DDR = regAddr base .PIN + U_type.sizeBytes ∧
      regAddr base .PORT = regAddr base .DDR + U_type.sizeBytes) ∧
    regAddr GPIOB_base .PIN = 0x23 ∧
    regAddr GPIOB_base .DDR = 0x24 ∧
    regAddr GPIOB_base .PORT = 0x25 ∧
    regAddr GPIOD_base .PIN = 0x29 ∧
    regAddr GPIOD_base .DDR = 0x2A ∧
    regAddr GPIOD_base .PORT = 0x2B := by
  refine ⟨rfl, fun base => ⟨rfl, rfl⟩, rfl, rfl, rfl, rfl, rfl, rfl⟩

/-- C3: Writing one bit through the bit-field view leaves the other seven
bits of the byte view unchanged: for any byte value, bit position `i`, and
written bit `v`, every bit position `j ≠ i` of the byte view reads the
same before and after. -/
theorem bit_field_isolation (u : U_type) (i j : Nat) (v : Bool)
    (hu : u.Reg < 256) (hi : i < 8) (hj : j < 8) (hne : j ≠ i) :
    (u.writeBit i v).Reg.testBit j = u.Reg.testBit j := by
  have hpow : (1 <<< i) = 2 ^ i := by
    rw [Nat.shiftLeft_eq, Nat.one_mul]
  have hbit : Nat.testBit (2 ^ i) j = false :=
    Nat.testBit_two_pow_of_ne (Ne.symm hne)
  cases v with
  | true =>
      simp [U_type.writeBit, Nat.testBit_or, hpow, hbit]
  | false =>
      have h255 : Nat.testBit 255 j = true := by
        have h : (255 : Nat) = 2 ^ 8 - 1 := by norm_num
        rw [h, Nat.testBit_two_pow_sub_one]
        simpa using hj
      simp [U_type.writeBit, Nat.testBit_and, Nat.testBit_xor, hpow, hbit, h255]

/-- Witness for C3: clearing bit 1 of the byte 0xAA leaves bit 3 (set)
unchanged. -/
theorem bit_field_isolation_witness :
    ((⟨0xAA⟩ : U_type).writeBit 1 false).Reg.testBit 3 =
      (⟨0xAA⟩ : U_type).Reg.testBit 3 :=
  bit_field_isolation ⟨0xAA⟩ 1 3 false (by decide) (by decide) (by decide)
    (by decide)

/-- C7: After the initialization step of `main`, bit 0 of the second
port's direction register is set, and every other bit of that register
still reads the value it held before initialization. -/
theorem ddrd_after_initialization (s : MachineState) :
    (mainInit s).GPIOD.DDR.Reg.testBit 0 = true ∧
    ∀ j : Nat, j ≠ 0 →
      (mainInit s).GPIOD.DDR.Reg.testBit j = s.GPIOD.DDR.Reg.testBit j := by
  have hform : (mainInit s).GPIOD.DDR.Reg = s.GPIOD.DDR.Reg ||| 1 := by
    simp [mainInit, U_type.writeBit]
  constructor
  · simp [hform, Nat.testBit_or]
  · intro j hj
    have hbit : Nat.testBit 1 j = false := by
      have h : (1 : Nat) = 2 ^ 0 := by norm_num
      rw [h]
      exact Nat.testBit_two_pow_of_ne (Ne.symm hj)
    simp [hform, Nat.testBit_or, hbit]

/-- Witness for C7 at a concrete state whose DDRD byte starts as 0x54:
bit 0 becomes set and bit 4 (set beforehand) is untouched. -/
theorem ddrd_after_initialization_witness :
    (mainInit ⟨⟨⟨0⟩, ⟨0⟩, ⟨0⟩⟩, ⟨⟨0⟩, ⟨0x54⟩, ⟨0⟩⟩⟩).GPIOD.DDR.Reg.testBit 0
        = true ∧
    (mainInit ⟨⟨⟨0⟩, ⟨0⟩, ⟨0⟩⟩, ⟨⟨0⟩, ⟨0x54⟩, ⟨0⟩⟩⟩).GPIOD.DDR.Reg.testBit 4
        = (⟨⟨⟨0⟩, ⟨0⟩, ⟨0⟩⟩, ⟨⟨0⟩, ⟨0x54⟩, ⟨0⟩⟩⟩ :
            MachineState).GPIOD.DDR.Reg.testBit 4 :=
  ⟨(ddrd_after_initialization ⟨⟨⟨0⟩, ⟨0⟩, ⟨0⟩⟩, ⟨⟨0⟩, ⟨0x54⟩, ⟨0⟩⟩⟩).1,
   (ddrd_after_initialization ⟨⟨⟨0⟩, ⟨0⟩, ⟨0⟩⟩, ⟨⟨0⟩, ⟨0x54⟩, ⟨0⟩⟩⟩).2 4
     (by decide)⟩

/-- Helper: the toggle loop always steps to a successor state, for any
number of transitions — the `while` condition is the constant `1`. -/
theorem sysRun_total (n : Nat) (st : SysState) :
    ∃ st', sysRun n st = some st' := by
  induction n generalizing st with
  | zero => exact ⟨st, rfl⟩
  | succ n ih =>
      cases hp : st.phase with
      | HIGH =>
          obtain ⟨st', h⟩ := ih ⟨writePORTB st.mach 0x00, Phase.LOW⟩
          exact ⟨st', by simp [sysRun, sysStep, whileCondition, hp, h]⟩
      | LOW =>
          obtain ⟨st', h⟩ := ih ⟨writePORTB st.mach 0xAA, Phase.HIGH⟩
          exact ⟨st', by simp [sysRun, sysStep, whileCondition, hp, h]⟩

/-- C5: The toggle loop never terminates: after any number of transitions
from the initialized start, the system is still in the `HIGH` or the `LOW`
state, awaiting its next transition; no reachable condition exits the
loop. -/
theorem loop_never_terminates (n : Nat) (s : MachineState) :
    ∃ st : SysState, sysRun n (startSys s) = some st ∧
      (st.phase = Phase.HIGH ∨ st.phase = Phase.LOW) := by
  obtain ⟨st, h⟩ := sysRun_total n (startSys s)
  refine ⟨st, h, ?_⟩
  cases st.phase with
  | HIGH => exact Or.inl rfl
  | LOW => exact Or.inr rfl

/-- Helper: a loop transition writes only the first port's output
register, so any run of the loop leaves both direction registers as they
were. -/
theorem sysRun_preserves_DDR (n : Nat) :
    ∀ st st' : SysState, sysRun n st = some st' →
      st'.mach.GPIOB.DDR = st.mach.GPIOB.DDR ∧
      st'.mach.GPIOD.DDR = st.mach.GPIOD.DDR := by
  induction n with
  | zero =>
      intro st st' h
      cases h
      exact ⟨rfl, rfl⟩
  | succ n ih =>
      intro st st' h
      cases hp : st.phase with
      | HIGH =>
          simp only [sysRun, sysStep, whileCondition, hp] at h
          simp only [if_neg (by decide : ¬ (1 : Nat) = 0), Option.bind_some] at h
          exact ih ⟨writePORTB st.mach 0x00, Phase.LOW⟩ st' h
      | LOW =>
          simp only [sysRun, sysStep, whileCondition, hp] at h
          simp only [if_neg (by decide : ¬ (1 : Nat) = 0), Option.bind_some] at h
          exact ih ⟨writePORTB st.mach 0xAA, Phase.HIGH⟩ st' h

/-- C9: Every state reachable by the toggle loop still carries the
direction configuration established at initialization: the first port's
direction register equals 0xAA and bit 0 of the second port's direction
register is set — the loop writes only the first port's output
register. -/
theorem loop_preserves_direction_config (n : Nat) (s : MachineState)
    (st : SysState) (h : sysRun n (startSys s) = some st) :
    st.mach.GPIOB.DDR.Reg = 0xAA ∧
    st.mach.GPIOD.DDR.Reg.testBit 0 = true := by
  obtain ⟨hB, hD⟩ := sysRun_preserves_DDR n (startSys s) st h
  constructor
  · rw [hB]
    rfl
  · rw [hD]
    have hform : (startSys s).mach.GPIOD.DDR.Reg = s.GPIOD.DDR.Reg ||| 1 := by
      simp [startSys, writePORTB, mainInit, U_type.writeBit]
    have h1 : Nat.testBit 1 0 = true := by decide
    simp [hform, Nat.testBit_or, h1]

/-- Witness for C9: after two loop transitions from the zero start state,
DDRB still reads 0xAA and bit 0 of DDRD is still set. -/
theorem loop_preserves_direction_config_witness :
    (⟨⟨⟨⟨0⟩, ⟨0xAA⟩, ⟨0xAA⟩⟩, ⟨⟨0⟩, ⟨1⟩, ⟨0⟩⟩⟩, Phase.HIGH⟩ :
      SysState).mach.GPIOB.DDR.Reg = 0xAA ∧
    (⟨⟨⟨⟨0⟩, ⟨0xAA⟩, ⟨0xAA⟩⟩, ⟨⟨0⟩, ⟨1⟩, ⟨0⟩⟩⟩, Phase.HIGH⟩ :
      SysState).mach.GPIOD.DDR.Reg.testBit 0 = true :=
  loop_preserves_direction_config 2 zeroState
    ⟨⟨⟨⟨0⟩, ⟨0xAA⟩, ⟨0xAA⟩⟩, ⟨⟨0⟩, ⟨1⟩, ⟨0⟩⟩⟩, Phase.HIGH⟩ (by decide)

/-- Helper: shifting both the sample time and the replay clock by the same
amount does not change the sampled value. -/
theorem sampleAt_shift (addr d : Nat) (tr : List Event) :
    ∀ t now cur : Nat,
      sampleAt addr (t + d) tr (now + d) cur = sampleAt addr t tr now cur := by
  induction tr with
  | nil => intro t now cur; rfl
  | cons e rest ih =>
      intro t now cur
      cases e with
      | write a v =>
          simp only [sampleAt, Nat.add_le_add_iff_right, ih]
      | read a v =>
          simp only [sampleAt, Nat.add_le_add_iff_right, ih]
      | delayMs ms =>
          simp only [sampleAt]
          rw [Nat.add_right_comm now d ms]
          simp only [Nat.add_le_add_iff_right, ih]

/-- Helper: replaying one loop iteration from clock 0 either finishes
inside the iteration (0xAA during the first hold, 0x00 during the second)
or hands over to the remaining iterations at clock 2000 with the output
register at 0x00. -/
theorem sampleAt_body (m t cur : Nat) :
    sampleAt (regAddr GPIOB_base .PORT) t (loopTrace (m + 1)) 0 cur =
      if 2000 ≤ t then
        sampleAt (regAddr GPIOB_base .PORT) t (loopTrace m) 2000 0x00
      else if 1000 ≤ t then 0x00 else 0xAA := by
  simp only [loopTrace, loopBodyTrace, List.cons_append, List.nil_append,
    sampleAt]
  by_cases h2 : 2000 ≤ t
  · have h1 : 1000 ≤ t := by omega
    simp [h1, h2]
  · by_cases h1 : 1000 ≤ t <;> simp [h1, h2]

/-- Helper: over any number of loop iterations covering time `t`, the
output register of the first port samples to 0xAA during even-numbered
1000 ms holds and to 0x00 during odd-numbered ones. -/
theorem sampleAt_loopTrace (m : Nat) :
    ∀ t cur : Nat, t < 2000 * m →
      sampleAt (regAddr GPIOB_base .PORT) t (loopTrace m) 0 cur =
        if t / 1000 % 2 = 0 then 0xAA else 0x00 := by
  induction m with
  | zero =>
      intro t cur h
      exact absurd h (by omega)
  | succ m ih =>
      intro t cur h
      rw [sampleAt_body m t cur]
      by_cases h2 : 2000 ≤ t
      · have hsh := sampleAt_shift (regAddr GPIOB_base .PORT) 2000
          (loopTrace m) (t - 2000) 0 0x00
        rw [Nat.sub_add_cancel h2, Nat.zero_add] at hsh
        rw [if_pos h2, hsh, ih (t - 2000) 0x00 (by omega)]
        have hmod : (t - 2000) / 1000 % 2 = t / 1000 % 2 := by omega
        rw [hmod]
      · rw [if_neg h2]
        by_cases h1 : 1000 ≤ t
        · rw [if_pos h1]
          have hmod : t / 1000 % 2 = 1 := by omega
          rw [hmod]
          decide
        · rw [if_neg h1]
          have hmod : t / 1000 % 2 = 0 := by omega
          rw [hmod]
          decide

/-- Helper: the initialization events touch only the two direction
registers, never the first port's output register, so they do not affect
its sampled value. -/
theorem sampleAt_initTrace (s : MachineState) (t cur : Nat)
    (rest : List Event) :
    sampleAt (regAddr GPIOB_base .PORT) t (initTrace s ++ rest) 0 cur =
      sampleAt (regAddr GPIOB_base .PORT) t rest 0 cur := by
  simp [initTrace, sampleAt, regAddr, PortReg.offset, GPIOB_base, GPIOD_base,
    U_type.sizeBytes]

/-- Helper: closed form of the sampled output of the first port at any
time `t` after entering the loop. -/
theorem portBOut_closed (s : MachineState) (t : Nat) :
    portBOut s t = if t / 1000 % 2 = 0 then 0xAA else 0x00 := by
  unfold portBOut runTrace
  rw [sampleAt_initTrace]
  exact sampleAt_loopTrace (t / 2000 + 1) t s.GPIOB.PORT.Reg (by omega)

/-- C1: Starting the toggle loop after initialization, the first port's
output register alternates forever between 0xAA and 0x00, each value held
for one 1000 ms interval: during the `n`-th interval the register reads
0xAA when `n` is even and 0x00 when `n` is odd. -/
theorem portB_alternating_holds (s : MachineState) (n t : Nat)
    (h1 : 1000 * n ≤ t) (h2 : t < 1000 * (n + 1)) :
    portBOut s t = if n % 2 = 0 then 0xAA else 0x00 := by
  rw [portBOut_closed]
  have hdiv : t / 1000 = n := by omega
  rw [hdiv]

/-- Witness for C1: at `t = 2500` ms, inside hold interval number 2, the
output register reads 0xAA. -/
theorem portB_alternating_holds_witness :
    portBOut zeroState 2500 = 0xAA :=
  portB_alternating_holds zeroState 2 2500 (by norm_num) (by norm_num)

/-- C6: For the run that initializes and then enters the toggle loop,
sampling the first port's output register yields 0xAA at `t = 0` ms,
0x00 at `t = 1500` ms, and 0xAA again at `t = 2500` ms. -/
theorem sample_timeline (s : MachineState) :
    portBOut s 0 = 0xAA ∧ portBOut s 1500 = 0x00 ∧ portBOut s 2500 = 0xAA := by
  refine ⟨?_, ?_, ?_⟩ <;> rw [portBOut_closed] <;> rfl

/-- Helper: the loop body emits no register reads. -/
theorem loopTrace_no_reads (n : Nat) :
    ∀ a v : Nat, Event.read a v ∉ loopTrace n := by
  induction n with
  | zero =>
      intro a v h
      simp [loopTrace] at h
  | succ n ih =>
      intro a v h
      simp only [loopTrace, loopBodyTrace, List.mem_append, List.mem_cons,
        List.not_mem_nil, or_false] at h
      rcases h with h | h
      · simp at h
      · exact ih a v h

/-- Counterexample for C10: the run does read a hardware register — the
bit-field store `GPIOD->DDR.Bit.PIN0 = 1;` fetches the second port's
direction register byte before writing it back, so the event trace
contains a read (of address 0x2A, not of an input-state register). -/
theorem run_performs_register_read :
    (runTrace zeroState 1).filter Event.isRead =
      [Event.read (regAddr GPIOD_base .DDR) 0] ∧
    (runTrace zeroState 1).filter Event.isRead ≠ [] := by
  constructor
  · decide
  · decide

/-- C10 (amended): the program reads no input-state register — its only
register read is the fetch of the second port's direction register done by
the bit-field store during initialization — and for any two runs that
differ only in the initial contents of the input-state registers, the
sequence of register writes performed (addresses, values, and order) is
identical. -/
theorem write_trace_input_independent (s1 s2 : MachineState) (n : Nat)
    (hBD : s1.GPIOB.DDR = s2.GPIOB.DDR) (hBP : s1.GPIOB.PORT = s2.GPIOB.PORT)
    (hDD : s1.GPIOD.DDR = s2.GPIOD.DDR) (hDP : s1.GPIOD.PORT = s2.GPIOD.PORT) :
    (runTrace s1 n).filter Event.isWrite =
      (runTrace s2 n).filter Event.isWrite ∧
    ∀ a v : Nat, Event.read a v ∈ runTrace s1 n →
      a = regAddr GPIOD_base .DDR := by
  constructor
  · simp [runTrace, initTrace, List.filter_append, hDD]
  · intro a v hmem
    simp only [runTrace, initTrace, List.mem_append, List.mem_cons,
      List.not_mem_nil, or_false] at hmem
    rcases hmem with (h | h | h) | h
    · simp at h
    · injection h with h1 h2
    · simp at h
    · exact absurd h (loopTrace_no_reads n a v)

/-- Witness for the amended C10 at two concrete states that differ only in
their input-state (`PIN`) registers. -/
theorem write_trace_input_independent_witness :
    ((runTrace zeroState 1).filter Event.isWrite =
      (runTrace ⟨⟨⟨0xFF⟩, ⟨0⟩, ⟨0⟩⟩, ⟨⟨0x0F⟩, ⟨0⟩, ⟨0⟩⟩⟩ 1).filter
        Event.isWrite) ∧
    ∀ a v : Nat, Event.read a v ∈ runTrace zeroState 1 →
      a = regAddr GPIOD_base .DDR :=
  write_trace_input_independent zeroState
    ⟨⟨⟨0xFF⟩, ⟨0⟩, ⟨0⟩⟩, ⟨⟨0x0F⟩, ⟨0⟩, ⟨0⟩⟩⟩ 1 rfl rfl rfl rfl
